import Mathlib

/-!
Verification development for the 3D markups widget representation
(`vtkSlicerMarkupsWidgetRepresentation3D`).  The repository ships only the
class header; every method body lives outside the staged sources, so the
operations below are shallow embeddings modelled from the specification's
own description of each method, with the header's declarations, comments
and documented defaults as anchors.  Real-valued quantities (C++ `double`
and the depth buffer's `float`) are modelled as rationals.
-/

namespace SlicerMarkups3D

/-- The closed set of control-point visual states.  The header fixes the
pipeline array as `ControlPointsPipelines[NumberOfControlPointTypes]`
commented `Unselected, Selected, Active, Project, ProjectBehind`. -/
inductive ControlPointType where
  | Unselected
  | Selected
  | Active
  | Project
  | ProjectBehind
deriving DecidableEq

/-- The five visual states in the fixed pipeline order. -/
def allControlPointTypes : List ControlPointType :=
  [ControlPointType.Unselected, ControlPointType.Selected, ControlPointType.Active,
   ControlPointType.Project, ControlPointType.ProjectBehind]

/-- A control point as read from the upstream data model: world position,
visual-state tag, visibility and selection flags, per-point overrides. -/
structure ControlPoint where
  position : ℚ × ℚ × ℚ
  state : ControlPointType
  visibility : Bool
  selected : Bool
  pointSize : ℚ
  opacity : ℚ
deriving DecidableEq

/-- Indices of the elements of `l` satisfying `P`, in list order. -/
def filteredIndices (l : List α) (P : α → Bool) : List ℕ :=
  (l.enum.filter (fun p => P p.2)).map Prod.fst

/-- Modelled from the spec: `UpdateAllPointsAndLabels` rebuilds every
pipeline's buffers by appending each control point to the pipeline of its
visual state and recording the original index in that pipeline's
`ControlPointIndices` array, preserving upstream order.  This gives, for
each state `t`, the index array the pipeline for `t` ends up with. -/
def controlPointIndices (pts : List ControlPoint) (t : ControlPointType) : List ℕ :=
  filteredIndices pts (fun p => decide (p.state = t))

lemma mem_filteredIndices (l : List α) (P : α → Bool) (i : ℕ) :
    i ∈ filteredIndices l P ↔ ∃ a, l[i]? = some a ∧ P a = true := by
  unfold filteredIndices
  simp only [List.mem_map, List.mem_filter, Prod.exists]
  constructor
  · rintro ⟨j, a, ⟨hmem, hP⟩, rfl⟩
    exact ⟨a, List.mk_mem_enum_iff_getElem?.mp hmem, hP⟩
  · rintro ⟨a, hget, hP⟩
    exact ⟨i, a, ⟨List.mk_mem_enum_iff_getElem?.mpr hget, hP⟩, rfl⟩

/-- C1: after every call to `UpdateAllPointsAndLabels`, the pipelines'
`ControlPointIndices` arrays partition the upstream control-point indices:
an index lies in some pipeline's array exactly when it indexes an upstream
point, and no index lies in the arrays of two distinct pipelines. -/
theorem updateAllPointsAndLabels_partition (pts : List ControlPoint) (i : ℕ) :
    (i < pts.length ↔ ∃ t, i ∈ controlPointIndices pts t)
    ∧ ∀ t₁ t₂, i ∈ controlPointIndices pts t₁ → i ∈ controlPointIndices pts t₂ → t₁ = t₂ := by
  constructor
  · constructor
    · intro h
      refine ⟨pts[i].state, (mem_filteredIndices pts _ i).mpr ⟨pts[i], ?_, ?_⟩⟩
      · exact List.getElem?_eq_getElem h
      · simp
    · rintro ⟨t, ht⟩
      obtain ⟨a, hget, -⟩ := (mem_filteredIndices pts _ i).mp ht
      exact (List.getElem?_eq_some_iff.mp hget).1
  · intro t₁ t₂ h₁ h₂
    obtain ⟨a₁, hg₁, hP₁⟩ := (mem_filteredIndices pts _ i).mp h₁
    obtain ⟨a₂, hg₂, hP₂⟩ := (mem_filteredIndices pts _ i).mp h₂
    have ha : a₁ = a₂ := by
      have := hg₁.symm.trans hg₂
      exact Option.some.inj this
    have e₁ : a₁.state = t₁ := of_decide_eq_true hP₁
    have e₂ : a₂.state = t₂ := of_decide_eq_true hP₂
    rw [← e₁, ← e₂, ha]

/-- A point as submitted to the occlusion test: its projected depth along
the view direction and the screen pixel it projects to. -/
structure RenderedPoint where
  depth : ℚ
  pixel : ℤ × ℤ
deriving DecidableEq

/-- Modelled from the spec: the depth comparison inside `UpdateZBuffer`
(performed by each pipeline's `SelectVisiblePoints` filter): a point passes
as visible when its projected depth does not exceed the cached buffer's
stored depth at its pixel by more than the epsilon tolerance. -/
def passesDepthTest (pointDepth bufferDepth eps : ℚ) : Bool :=
  decide (pointDepth ≤ bufferDepth + eps)

/-- Modelled from the spec: `UpdateZBuffer` classifies every rendered point
against the cached depth buffer; the indices of points that pass the depth
test are kept as visible, the remaining points are occluded. -/
def updateZBuffer (zBuffer : ℤ × ℤ → ℚ) (eps : ℚ) (pts : List RenderedPoint) : List ℕ :=
  filteredIndices pts (fun p => passesDepthTest p.depth (zBuffer p.pixel) eps)

/-- Modelled from the spec: `SetAllPointsVisible` marks every point visible. -/
def setAllPointsVisible (pts : List RenderedPoint) : List ℕ :=
  List.range pts.length

/-- Modelled from the spec: `CachedZBuffers` maps a view identity to the
depth buffer captured at its last completed render; `GetCachedZBuffer`
returns the stored buffer, or nothing when no render has completed yet. -/
def GetCachedZBuffer (cache : List (ℕ × (ℤ × ℤ → ℚ))) (view : ℕ) : Option (ℤ × ℤ → ℚ) :=
  (cache.find? (fun e => e.1 == view)).map Prod.snd

/-- Modelled from the spec: the per-frame occlusion pass. With a cached
buffer the points are classified through `UpdateZBuffer`; with no buffer
available the pass fails open through `SetAllPointsVisible`. -/
def occlusionPass (cached : Option (ℤ × ℤ → ℚ)) (eps : ℚ) (pts : List RenderedPoint) : List ℕ :=
  match cached with
  | none => setAllPointsVisible pts
  | some zb => updateZBuffer zb eps pts

/-- Modelled from the spec: `GetNthControlPointViewVisibility` reports
whether point `n` is currently among the indices classified visible. -/
def GetNthControlPointViewVisibility (visibleIndices : List ℕ) (n : ℕ) : Bool :=
  decide (n ∈ visibleIndices)

/-- C2: `UpdateZBuffer` classifies a rendered point as occluded when its
projected depth exceeds the cached buffer's depth at its pixel by more than
the epsilon tolerance, and as visible when its projected depth is at most
the buffer's depth. -/
theorem updateZBuffer_classification (zb : ℤ × ℤ → ℚ) (eps : ℚ) (pts : List RenderedPoint)
    (n : ℕ) (p : RenderedPoint) (hp : pts[n]? = some p) (heps : 0 ≤ eps) :
    (zb p.pixel + eps < p.depth →
      GetNthControlPointViewVisibility (updateZBuffer zb eps pts) n = false)
    ∧ (p.depth ≤ zb p.pixel →
      GetNthControlPointViewVisibility (updateZBuffer zb eps pts) n = true) := by
  have hmem : n ∈ updateZBuffer zb eps pts ↔
      passesDepthTest p.depth (zb p.pixel) eps = true := by
    rw [updateZBuffer, mem_filteredIndices]
    constructor
    · rintro ⟨a, hget, hpass⟩
      have hpa : p = a := Option.some.inj (hp.symm.trans hget)
      rw [hpa]
      exact hpass
    · intro hpass
      exact ⟨p, hp, hpass⟩
  constructor
  · intro hfar
    unfold GetNthControlPointViewVisibility
    apply decide_eq_false
    intro hm
    have hpass := hmem.mp hm
    simp only [passesDepthTest, decide_eq_true_eq] at hpass
    linarith
  · intro hnear
    unfold GetNthControlPointViewVisibility
    apply decide_eq_true
    apply hmem.mpr
    simp only [passesDepthTest, decide_eq_true_eq]
    linarith

/-- A concrete depth buffer storing depth 5 at every pixel. -/
def zBuffer5 : ℤ × ℤ → ℚ := fun _ => 5

/-- A concrete rendered point at depth 10, pixel (0, 0). -/
def farPoint : RenderedPoint := ⟨10, (0, 0)⟩

/-- Witness for C2 at a concrete point and buffer. -/
theorem updateZBuffer_classification_witness :
    (([farPoint] : List RenderedPoint)[0]? = some farPoint ∧ (0 : ℚ) ≤ 0)
    ∧ ((zBuffer5 farPoint.pixel + 0 < farPoint.depth →
          GetNthControlPointViewVisibility (updateZBuffer zBuffer5 0 [farPoint]) 0 = false)
       ∧ (farPoint.depth ≤ zBuffer5 farPoint.pixel →
          GetNthControlPointViewVisibility (updateZBuffer zBuffer5 0 [farPoint]) 0 = true)) :=
  ⟨⟨rfl, le_refl 0⟩, updateZBuffer_classification zBuffer5 0 [farPoint] 0 farPoint rfl (le_refl 0)⟩

/-- C3: when `GetCachedZBuffer` reports no buffer for the view, the frame's
occlusion pass fails open and `GetNthControlPointViewVisibility` returns
true for every point index. -/
theorem missingCache_failOpen (cache : List (ℕ × (ℤ × ℤ → ℚ))) (view : ℕ) (eps : ℚ)
    (pts : List RenderedPoint) (n : ℕ)
    (hcache : GetCachedZBuffer cache view = none) (hn : n < pts.length) :
    GetNthControlPointViewVisibility
      (occlusionPass (GetCachedZBuffer cache view) eps pts) n = true := by
  rw [hcache]
  unfold occlusionPass setAllPointsVisible GetNthControlPointViewVisibility
  exact decide_eq_true (List.mem_range.mpr hn)

/-- Witness for C3 on an empty cache and a two-point frame. -/
theorem missingCache_failOpen_witness :
    (GetCachedZBuffer [] 0 = none ∧ 1 < ([farPoint, farPoint] : List RenderedPoint).length)
    ∧ GetNthControlPointViewVisibility
        (occlusionPass (GetCachedZBuffer [] 0) 0 [farPoint, farPoint]) 1 = true :=
  ⟨⟨rfl, by decide⟩, missingCache_failOpen [] 0 0 [farPoint, farPoint] 1 rfl (by decide)⟩

/-- The kinds of interactable component a pick can return. -/
inductive ComponentType where
  | ComponentNone
  | Handle
  | Point
  | Line
deriving DecidableEq

/-- The pick output contract: component type, component index, and the
smallest squared screen distance seen so far.  `none` for the distance
models the initial "infinite" sentinel. -/
structure PickState where
  componentType : ComponentType
  componentIndex : ℤ
  closestDistance2 : Option ℚ
deriving DecidableEq

/-- The router's starting state: the distinguished "none" component with
the distance at its initial infinite sentinel. -/
def initialPickState : PickState :=
  ⟨ComponentType.ComponentNone, -1, none⟩

/-- Whether a candidate distance beats the best distance so far: anything
beats the infinite sentinel, and otherwise the candidate must be strictly
smaller (on a tie the earlier, higher-priority match is kept). -/
def beatsDistance (d2 : ℚ) (best : Option ℚ) : Bool :=
  match best with
  | none => true
  | some c => decide (d2 < c)

/-- Modelled from the spec: one candidate step of the interaction router.
A candidate of kind `t` at squared distance `d2` replaces the state only
when it is within the tolerance and strictly beats the best distance so
far; ties are broken by step priority order. -/
def considerCandidate (tol2 : ℚ) (cur : PickState) (t : ComponentType)
    (idx : ℤ) (d2 : ℚ) : PickState :=
  if decide (d2 ≤ tol2) && beatsDistance d2 cur.closestDistance2 then ⟨t, idx, some d2⟩ else cur

/-- Modelled from the spec: `CanInteractWithHandles` tests the pointer
against every interaction handle, given each handle's index and squared
screen distance to the pointer; it runs first of all steps. -/
def CanInteractWithHandles (tol2 : ℚ) (handles : List (ℤ × ℚ)) (cur : PickState) : PickState :=
  handles.foldl (fun st h => considerCandidate tol2 st ComponentType.Handle h.1 h.2) cur

/-- Modelled from the spec: the control-point proximity step, given each
visible point's index and squared screen distance to the pointer. -/
def canInteractWithPoints (tol2 : ℚ) (points : List (ℤ × ℚ)) (cur : PickState) : PickState :=
  points.foldl (fun st p => considerCandidate tol2 st ComponentType.Point p.1 p.2) cur

/-- Modelled from the spec: `CanInteractWithLine` tests the pointer against
the polyline connecting consecutive visible points, given the closest line
candidate (index and squared distance) when one exists; per the header, if
no better component is found then the input state is returned. -/
def CanInteractWithLine (tol2 : ℚ) (line : Option (ℤ × ℚ)) (cur : PickState) : PickState :=
  match line with
  | none => cur
  | some l => considerCandidate tol2 cur ComponentType.Line l.1 l.2

/-- Modelled from the spec: `CanInteract` runs the steps in strict priority
order — handles, then visible control points, then the connecting line —
starting from the "none"/infinite initial state. -/
def CanInteract (tol2 : ℚ) (handles points : List (ℤ × ℚ))
    (line : Option (ℤ × ℚ)) : PickState :=
  CanInteractWithLine tol2 line
    (canInteractWithPoints tol2 points
      (CanInteractWithHandles tol2 handles initialPickState))

lemma considerCandidate_of_far (tol2 : ℚ) (cur : PickState) (t : ComponentType)
    (idx : ℤ) (d2 : ℚ) (h : tol2 < d2) :
    considerCandidate tol2 cur t idx d2 = cur := by
  unfold considerCandidate
  have : decide (d2 ≤ tol2) = false := decide_eq_false (by linarith)
  rw [this]
  simp

lemma considerCandidate_of_not_closer (tol2 : ℚ) (cur : PickState) (t : ComponentType)
    (idx : ℤ) (d2 c : ℚ) (hc : cur.closestDistance2 = some c) (h : c ≤ d2) :
    considerCandidate tol2 cur t idx d2 = cur := by
  unfold considerCandidate
  rw [hc]
  have : beatsDistance d2 (some c) = false := decide_eq_false (by linarith)
  rw [this]
  simp

lemma foldl_considerCandidate_of_far (tol2 : ℚ) (t : ComponentType)
    (cs : List (ℤ × ℚ)) (cur : PickState) (h : ∀ c ∈ cs, tol2 < c.2) :
    cs.foldl (fun st c => considerCandidate tol2 st t c.1 c.2) cur = cur := by
  induction cs generalizing cur with
  | nil => rfl
  | cons c rest ih =>
    rw [List.foldl_cons, considerCandidate_of_far tol2 cur t c.1 c.2 (h c (List.mem_cons_self c rest))]
    exact ih cur fun x hx => h x (List.mem_cons_of_mem c hx)

lemma foldl_considerCandidate_of_not_closer (tol2 d : ℚ) (t : ComponentType)
    (cs : List (ℤ × ℚ)) (cur : PickState) (hc : cur.closestDistance2 = some d)
    (h : ∀ c ∈ cs, d ≤ c.2) :
    cs.foldl (fun st c => considerCandidate tol2 st t c.1 c.2) cur = cur := by
  induction cs with
  | nil => rfl
  | cons c rest ih =>
    rw [List.foldl_cons,
      considerCandidate_of_not_closer tol2 cur t c.1 c.2 d hc (h c (List.mem_cons_self c rest))]
    exact ih fun x hx => h x (List.mem_cons_of_mem c hx)

/-- C4: when an interaction handle and every control point lie at equal (or
no smaller) screen distance from the pointer, with the handle within
tolerance, `CanInteract` returns the handle component, never the point:
handle picking runs first and wins ties. -/
theorem canInteract_handle_priority (hi : ℤ) (d tol2 : ℚ) (points : List (ℤ × ℚ))
    (hd : d ≤ tol2) (hpts : ∀ p ∈ points, d ≤ p.2) :
    CanInteract tol2 [(hi, d)] points none = ⟨ComponentType.Handle, hi, some d⟩ := by
  have h1 : CanInteractWithHandles tol2 [(hi, d)] initialPickState
      = ⟨ComponentType.Handle, hi, some d⟩ := by
    unfold CanInteractWithHandles initialPickState
    rw [List.foldl_cons, List.foldl_nil]
    unfold considerCandidate beatsDistance
    rw [decide_eq_true hd]
    simp
  unfold CanInteract
  rw [h1]
  unfold canInteractWithPoints
  rw [foldl_considerCandidate_of_not_closer tol2 d ComponentType.Point points _ rfl hpts]
  rfl

/-- Witness for C4: one handle and one point both at squared distance 4. -/
theorem canInteract_handle_priority_witness :
    ((4 : ℚ) ≤ 4 ∧ ∀ p ∈ ([(7, 4)] : List (ℤ × ℚ)), (4 : ℚ) ≤ p.2)
    ∧ CanInteract 4 [(3, 4)] [(7, 4)] none = ⟨ComponentType.Handle, 3, some 4⟩ :=
  ⟨⟨le_refl 4, by decide⟩, canInteract_handle_priority 3 4 4 [(7, 4)] (le_refl 4) (by decide)⟩

/-- C5: when no handle and no control point is within tolerance, the line
candidate's result is returned whenever the polyline is within tolerance;
when nothing at all is within tolerance (or there is no line candidate) the
result is the "none" component with the distance still at the infinite
sentinel; and a line candidate never overrides an already-found match that
is at least as close. -/
theorem canInteract_line_fallback (tol2 : ℚ) (handles points : List (ℤ × ℚ)) (li : ℤ) (ld : ℚ)
    (hh : ∀ h ∈ handles, tol2 < h.2) (hp : ∀ p ∈ points, tol2 < p.2) :
    (ld ≤ tol2 →
      CanInteract tol2 handles points (some (li, ld)) = ⟨ComponentType.Line, li, some ld⟩)
    ∧ (tol2 < ld → CanInteract tol2 handles points (some (li, ld)) = initialPickState)
    ∧ CanInteract tol2 handles points none = initialPickState
    ∧ ∀ (cur : PickState) (c : ℚ), cur.closestDistance2 = some c → c ≤ ld →
        CanInteractWithLine tol2 (some (li, ld)) cur = cur := by
  have hsteps : canInteractWithPoints tol2 points
      (CanInteractWithHandles tol2 handles initialPickState) = initialPickState := by
    unfold CanInteractWithHandles canInteractWithPoints
    rw [foldl_considerCandidate_of_far tol2 ComponentType.Handle handles initialPickState hh]
    exact foldl_considerCandidate_of_far tol2 ComponentType.Point points initialPickState hp
  refine ⟨?_, ?_, ?_, ?_⟩
  · intro hld
    unfold CanInteract
    rw [hsteps]
    simp [CanInteractWithLine, considerCandidate, beatsDistance, initialPickState, hld]
  · intro hld
    unfold CanInteract
    rw [hsteps]
    exact considerCandidate_of_far tol2 initialPickState ComponentType.Line li ld hld
  · unfold CanInteract
    rw [hsteps]
    rfl
  · intro cur c hc hcl
    unfold CanInteractWithLine
    exact considerCandidate_of_not_closer tol2 cur ComponentType.Line li ld c hc hcl

/-- Witness for C5: a far handle and point, and a line candidate within
tolerance. -/
theorem canInteract_line_fallback_witness :
    ((∀ h ∈ ([(0, 9)] : List (ℤ × ℚ)), (4 : ℚ) < h.2)
      ∧ ∀ p ∈ ([(1, 8)] : List (ℤ × ℚ)), (4 : ℚ) < p.2)
    ∧ ((3 : ℚ) ≤ 4 →
        CanInteract 4 [(0, 9)] [(1, 8)] (some (2, 3)) = ⟨ComponentType.Line, 2, some 3⟩) :=
  ⟨⟨by decide, by decide⟩,
    (canInteract_line_fallback 4 [(0, 9)] [(1, 8)] 2 3 (by decide) (by decide)).1⟩

/-- The representation state the offset accessors touch: the
`OccludedRelativeOffset` member and the modified flag the setter raises. -/
structure Representation3DState where
  occludedRelativeOffset : ℚ
  modifiedFlag : Bool
deriving DecidableEq

/-- Modelled from the spec: the constructor initializes
`OccludedRelativeOffset` to the documented default of -25000. -/
def mkRepresentation3D : Representation3DState :=
  ⟨-25000, false⟩

/-- Embedding of the header's `vtkGetMacro(OccludedRelativeOffset, double)`:
return the stored member. -/
def GetOccludedRelativeOffset (s : Representation3DState) : ℚ :=
  s.occludedRelativeOffset

/-- Embedding of the header's `vtkSetMacro(OccludedRelativeOffset, double)`.
The VTK set macro expands to a guarded plain assignment — if the new value
differs from the member, store it and raise the modified flag — with no
range check of any kind. -/
def SetOccludedRelativeOffset (s : Representation3DState) (v : ℚ) : Representation3DState :=
  if s.occludedRelativeOffset = v then s else ⟨v, true⟩

/-- C6 counterexample: setting `OccludedRelativeOffset` to 70000 — outside
[-65000, 65000] — is neither rejected nor clamped: the stored offset
silently becomes 70000, an out-of-range value. -/
theorem setOccludedRelativeOffset_no_clamp_counterexample :
    GetOccludedRelativeOffset (SetOccludedRelativeOffset mkRepresentation3D 70000) = 70000
    ∧ ¬ GetOccludedRelativeOffset (SetOccludedRelativeOffset mkRepresentation3D 70000)
        ≤ 65000 := by
  constructor
  · rfl
  · intro h
    norm_num [GetOccludedRelativeOffset, SetOccludedRelativeOffset, mkRepresentation3D] at h

/-- C6 amended: the setter stores the requested value verbatim — the offset
never wraps to a different value, but out-of-range requests are neither
rejected nor clamped. -/
theorem setOccludedRelativeOffset_stores_verbatim (s : Representation3DState) (v : ℚ) :
    GetOccludedRelativeOffset (SetOccludedRelativeOffset s v) = v := by
  unfold GetOccludedRelativeOffset SetOccludedRelativeOffset
  by_cases h : s.occludedRelativeOffset = v
  · rw [if_pos h]
    exact h
  · rw [if_neg h]

/-- C9: at construction `OccludedRelativeOffset` holds the documented
default -25000, a value inside [-65000, 65000], and the getter returns it
until a setter runs. -/
theorem occludedRelativeOffset_default :
    GetOccludedRelativeOffset mkRepresentation3D = -25000
    ∧ -65000 ≤ GetOccludedRelativeOffset mkRepresentation3D
    ∧ GetOccludedRelativeOffset mkRepresentation3D ≤ 65000 := by
  refine ⟨rfl, ?_, ?_⟩ <;>
    norm_num [GetOccludedRelativeOffset, mkRepresentation3D]

/-- The three relative coincident-topology offset parameters the occluded
mapper carries (line, polygon and point offsets, in offset units). -/
structure MapperOffsetParameters where
  lineOffset : ℚ
  polygonOffset : ℚ
  pointOffset : ℚ
deriving DecidableEq

/-- Modelled from the spec: `UpdateRelativeCoincidentTopologyOffsets`
writes `OccludedRelativeOffset` into the occluded mapper's relative
coincident-topology line, polygon and point offset parameters. -/
def UpdateRelativeCoincidentTopologyOffsets (s : Representation3DState)
    (_occludedMapper : MapperOffsetParameters) : MapperOffsetParameters :=
  ⟨s.occludedRelativeOffset, s.occludedRelativeOffset, s.occludedRelativeOffset⟩

/-- Modelled from the spec: under the header's sign convention, an offset
parameter with positive units displaces the geometry it is applied to away
from the camera. -/
def displacesAwayFromCamera (units : ℚ) : Prop :=
  0 < units

/-- Modelled from the spec: negative offset units displace the geometry
toward the camera. -/
def displacesTowardCamera (units : ℚ) : Prop :=
  units < 0

/-- C10: the sign of `OccludedRelativeOffset` sets the depth-bias direction
of all three coincident-topology offset parameters written to the occluded
mapper: positive moves the occluded geometry away from the camera, negative
moves it toward the camera. -/
theorem occludedOffset_sign_direction (s : Representation3DState)
    (m : MapperOffsetParameters) :
    ((UpdateRelativeCoincidentTopologyOffsets s m).lineOffset = GetOccludedRelativeOffset s
      ∧ (UpdateRelativeCoincidentTopologyOffsets s m).polygonOffset = GetOccludedRelativeOffset s
      ∧ (UpdateRelativeCoincidentTopologyOffsets s m).pointOffset = GetOccludedRelativeOffset s)
    ∧ (0 < GetOccludedRelativeOffset s →
        displacesAwayFromCamera (UpdateRelativeCoincidentTopologyOffsets s m).lineOffset
        ∧ displacesAwayFromCamera (UpdateRelativeCoincidentTopologyOffsets s m).polygonOffset
        ∧ displacesAwayFromCamera (UpdateRelativeCoincidentTopologyOffsets s m).pointOffset)
    ∧ (GetOccludedRelativeOffset s < 0 →
        displacesTowardCamera (UpdateRelativeCoincidentTopologyOffsets s m).lineOffset
        ∧ displacesTowardCamera (UpdateRelativeCoincidentTopologyOffsets s m).polygonOffset
        ∧ displacesTowardCamera (UpdateRelativeCoincidentTopologyOffsets s m).pointOffset) := by
  refine ⟨⟨rfl, rfl, rfl⟩, fun h => ⟨h, h, h⟩, fun h => ⟨h, h, h⟩⟩

/-- An axis-aligned bounding box, the 6-tuple
(xmin, xmax, ymin, ymax, zmin, zmax). -/
structure Bounds where
  xmin : ℚ
  xmax : ℚ
  ymin : ℚ
  ymax : ℚ
  zmin : ℚ
  zmax : ℚ
deriving DecidableEq

/-- The degenerate box of a single world position. -/
def pointBounds (p : ℚ × ℚ × ℚ) : Bounds :=
  ⟨p.1, p.1, p.2.1, p.2.1, p.2.2, p.2.2⟩

/-- Union of two optional boxes; `none` is the empty box of an empty
pipeline. -/
def unionBounds : Option Bounds → Option Bounds → Option Bounds
  | none, b => b
  | some a, none => some a
  | some a, some b =>
      some ⟨min a.xmin b.xmin, max a.xmax b.xmax, min a.ymin b.ymin,
            max a.ymax b.ymax, min a.zmin b.zmin, max a.zmax b.zmax⟩

/-- The AABB of a list of buffered positions. -/
def boundsOfPositions (ps : List (ℚ × ℚ × ℚ)) : Option Bounds :=
  ps.foldl (fun b p => unionBounds b (some (pointBounds p))) none

/-- Modelled from the spec: the positions state `t`'s pipeline holds after
the most recent `UpdateAllPointsAndLabels` call (the points whose visual
state is `t`, in upstream order). -/
def pipelinePositions (pts : List ControlPoint) (t : ControlPointType) : List (ℚ × ℚ × ℚ) :=
  (pts.filter (fun p => decide (p.state = t))).map ControlPoint.position

/-- Modelled from the spec: `GetBounds` returns the union of the
axis-aligned bounding boxes of all pipelines' currently-buffered
geometry. -/
def GetBounds (pts : List ControlPoint) : Option Bounds :=
  allControlPointTypes.foldl
    (fun b t => unionBounds b (boundsOfPositions (pipelinePositions pts t))) none

/-- Containment of a position in an optional box. -/
def insideBounds : Option Bounds → ℚ × ℚ × ℚ → Prop
  | none, _ => False
  | some b, p =>
      b.xmin ≤ p.1 ∧ p.1 ≤ b.xmax ∧ b.ymin ≤ p.2.1 ∧ p.2.1 ≤ b.ymax
        ∧ b.zmin ≤ p.2.2 ∧ p.2.2 ≤ b.zmax

lemma insideBounds_unionBounds_left (b c : Option Bounds) (x : ℚ × ℚ × ℚ)
    (h : insideBounds b x) : insideBounds (unionBounds b c) x := by
  match b, c with
  | none, _ => exact absurd h id
  | some a, none => exact h
  | some a, some d =>
    obtain ⟨h1, h2, h3, h4, h5, h6⟩ := h
    exact ⟨le_trans (min_le_left _ _) h1, le_trans h2 (le_max_left _ _),
      le_trans (min_le_left _ _) h3, le_trans h4 (le_max_left _ _),
      le_trans (min_le_left _ _) h5, le_trans h6 (le_max_left _ _)⟩

lemma insideBounds_unionBounds_right (b c : Option Bounds) (x : ℚ × ℚ × ℚ)
    (h : insideBounds c x) : insideBounds (unionBounds b c) x := by
  match b, c with
  | none, _ => exact h
  | some a, none => exact absurd h id
  | some a, some d =>
    obtain ⟨h1, h2, h3, h4, h5, h6⟩ := h
    exact ⟨le_trans (min_le_right _ _) h1, le_trans h2 (le_max_right _ _),
      le_trans (min_le_right _ _) h3, le_trans h4 (le_max_right _ _),
      le_trans (min_le_right _ _) h5, le_trans h6 (le_max_right _ _)⟩

lemma insideBounds_unionFold_preserve (g : β → Option Bounds) (l : List β)
    (acc : Option Bounds) (x : ℚ × ℚ × ℚ) (h : insideBounds acc x) :
    insideBounds (l.foldl (fun b y => unionBounds b (g y)) acc) x := by
  induction l generalizing acc with
  | nil => exact h
  | cons y rest ih =>
    rw [List.foldl_cons]
    exact ih _ (insideBounds_unionBounds_left acc (g y) x h)

lemma insideBounds_unionFold_mem (g : β → Option Bounds) (l : List β)
    (acc : Option Bounds) (x : ℚ × ℚ × ℚ) (y : β) (hy : y ∈ l)
    (hx : insideBounds (g y) x) :
    insideBounds (l.foldl (fun b z => unionBounds b (g z)) acc) x := by
  induction l generalizing acc with
  | nil => cases hy
  | cons z rest ih =>
    rw [List.foldl_cons]
    rcases List.mem_cons.mp hy with h | h
    · rw [h] at hx
      exact insideBounds_unionFold_preserve g rest _ x
        (insideBounds_unionBounds_right acc (g z) x hx)
    · exact ih _ h

lemma insideBounds_pointBounds (x : ℚ × ℚ × ℚ) :
    insideBounds (some (pointBounds x)) x :=
  ⟨le_refl _, le_refl _, le_refl _, le_refl _, le_refl _, le_refl _⟩

lemma insideBounds_boundsOfPositions (ps : List (ℚ × ℚ × ℚ)) (x : ℚ × ℚ × ℚ)
    (hx : x ∈ ps) : insideBounds (boundsOfPositions ps) x :=
  insideBounds_unionFold_mem (fun p => some (pointBounds p)) ps none x x hx
    (insideBounds_pointBounds x)

/-- C7: `GetBounds` is the union of all pipelines' boxes after the latest
update — every upstream position lies inside it — and on the point set
{(0,0,0), (1,2,3), (-1,0,5)} it returns exactly [-1,1, 0,2, 0,5]. -/
theorem getBounds_union_concrete :
    GetBounds
      [⟨(0, 0, 0), ControlPointType.Unselected, true, false, 1, 1⟩,
       ⟨(1, 2, 3), ControlPointType.Selected, true, true, 1, 1⟩,
       ⟨(-1, 0, 5), ControlPointType.Active, true, false, 1, 1⟩]
      = some ⟨-1, 1, 0, 2, 0, 5⟩
    ∧ ∀ (pts : List ControlPoint) (p : ControlPoint), p ∈ pts →
        insideBounds (GetBounds pts) p.position := by
  constructor
  · decide
  · intro pts p hp
    have hmem : p.position ∈ pipelinePositions pts p.state := by
      apply List.mem_map_of_mem
      exact List.mem_filter.mpr ⟨hp, by simp⟩
    have hstate : p.state ∈ allControlPointTypes := by
      cases p.state <;> simp [allControlPointTypes]
    exact insideBounds_unionFold_mem
      (fun t => boundsOfPositions (pipelinePositions pts t))
      allControlPointTypes none p.position p.state hstate
      (insideBounds_boundsOfPositions _ _ hmem)

/-- The graphics resources one pipeline's four actors hold. -/
structure PipelineResources where
  actorResources : Bool
  occludedActorResources : Bool
  labelsActorResources : Bool
  labelsOccludedActorResources : Bool
deriving DecidableEq

/-- A pipeline holding no graphics resources. -/
def releasedPipeline : PipelineResources :=
  ⟨false, false, false, false⟩

/-- How many of a pipeline's actors still hold graphics resources. -/
def pipelineResourceCount (p : PipelineResources) : ℕ :=
  (if p.actorResources then 1 else 0) + (if p.occludedActorResources then 1 else 0)
    + (if p.labelsActorResources then 1 else 0)
    + (if p.labelsOccludedActorResources then 1 else 0)

/-- The pipeline manager's observable resource state, one entry per
visual-state pipeline. -/
structure ManagerResources where
  pipelines : List PipelineResources
deriving DecidableEq

/-- Modelled from the spec: `ReleaseGraphicsResources` releases the
graphics resources of every actor of every pipeline. -/
def ReleaseGraphicsResources (m : ManagerResources) : ManagerResources :=
  ⟨m.pipelines.map (fun _ => releasedPipeline)⟩

/-- The total number of renderables still holding graphics resources. -/
def renderableResourceCount (m : ManagerResources) : ℕ :=
  (m.pipelines.map pipelineResourceCount).sum

/-- Modelled from the spec: the manager at construction — the five fixed
pipelines exist but no graphics resources were built yet. -/
def freshManager : ManagerResources :=
  ⟨[releasedPipeline, releasedPipeline, releasedPipeline, releasedPipeline, releasedPipeline]⟩

/-- C8: `ReleaseGraphicsResources` is idempotent — releasing twice yields
the same observable state as releasing once, with zero renderable
resources — and it is safe (a no-op) on a manager on which no geometry was
ever built. -/
theorem releaseGraphicsResources_idempotent (m : ManagerResources) :
    ReleaseGraphicsResources (ReleaseGraphicsResources m) = ReleaseGraphicsResources m
    ∧ renderableResourceCount (ReleaseGraphicsResources m) = 0
    ∧ ReleaseGraphicsResources freshManager = freshManager := by
  have hmap : ∀ l : List PipelineResources,
      (l.map (fun _ => releasedPipeline)).map (fun _ => releasedPipeline)
        = l.map (fun _ => releasedPipeline) := by
    intro l
    induction l with
    | nil => rfl
    | cons a rest ih =>
      rw [List.map_cons, List.map_cons, ih]
  have hsum : ∀ l : List PipelineResources,
      ((l.map (fun _ => releasedPipeline)).map pipelineResourceCount).sum = 0 := by
    intro l
    induction l with
    | nil => rfl
    | cons a rest ih =>
      rw [List.map_cons, List.map_cons, List.sum_cons, ih]
      decide
  exact ⟨congrArg ManagerResources.mk (hmap m.pipelines), hsum m.pipelines, rfl⟩

end SlicerMarkups3D
